import Mathlib

/-!
Shallow embedding of `src/user_source/parking-sensor-algorithm.c`, a parking
occupancy detector built on an envelope radar sensor.

Modelling conventions: C `float` arithmetic is modelled by exact rationals
`ℚ`; `uint16_t` sample values are natural numbers (below `2 ^ 16`), and the
16-bit wrap-around arithmetic the C code performs on the `uint16_t`
accumulator `res` is written explicitly with `% 65536`.  File input is
modelled at token level: the sample section of a calibration file is a list
of tokens, each either a numeric token (scanned by `fscanf("%hu", ...)`,
which consumes it and returns 1), or a non-numeric token (matching failure:
`fscanf` returns 0 and does not consume it, so every later call fails the
same way); past the end of the list every call returns `EOF = -1`.
-/

namespace ParkingSensor

/-- `#define MAX_DATA_SIZE (3000)` -/
def MAX_DATA_SIZE : ℕ := 3000

/-- `typedef struct datapoint { float dist; float amp; } Datapoint` -/
structure Datapoint where
  dist : ℚ
  amp : ℚ
deriving DecidableEq, Inhabited

/-- `radar_configuration_t` -/
structure radar_configuration where
  start_range : ℚ
  length_range : ℚ
  nbr_of_sweeps : ℤ
  frequency : ℤ
  sensor : ℤ
deriving DecidableEq

/-- `app_configuration_t` (the calibration file name kept abstract). -/
structure app_configuration where
  calibrate : Bool
  read_calibration_file : Bool
  radar_config : radar_configuration
  loglevel : ℤ
  calibration_file_name : String
  time_delay : ℤ
  delay : Bool
deriving DecidableEq

/-- Default settings from the top of the C file; `ACC_LOG_LEVEL_ERROR` is an
external constant whose concrete value the repository does not fix, modelled
as 0 (no claim depends on it). -/
def init_configuration : app_configuration :=
  { calibrate := false
    read_calibration_file := false
    radar_config :=
      { start_range := 12/100      -- DEFAULT_START_RANGE = 0.12
        length_range := 48/100     -- DEFAULT_LENGTH_RANGE = 0.48
        nbr_of_sweeps := 1         -- NBR_OF_SWEEPS
        frequency := 100           -- FREQUENCY
        sensor := 1 }              -- DEFAULT_SENSOR
    loglevel := 0
    calibration_file_name := "parking.cal"
    time_delay := 10               -- DEFAULT_DELAY
    delay := false }

/-- `int car_present(float avg_peak_amp, float avg_calib_amp, float avg_amp_factor)`:
returns 0 when `avg_peak_amp <= avg_calib_amp * avg_amp_factor * 4`, else 1.
(1 encodes Occupied, 0 encodes Empty.) -/
def car_present (avg_peak_amp avg_calib_amp avg_amp_factor : ℚ) : ℤ :=
  if avg_peak_amp ≤ avg_calib_amp * avg_amp_factor * 4 then 0 else 1

/-- `void format_data(Datapoint *data, uint16_t *amp, int length, float start, float end)`:
`data[i].dist = start + step*i` with `step = (end-start)/length`, and
`data[i].amp = amp[i]`, for `0 ≤ i < length`.  The amplitude array and its
length are modelled together as a list. -/
def format_data (amp : List ℕ) (start stop : ℚ) : List Datapoint :=
  (List.range amp.length).map fun i : ℕ =>
    { dist := start + ((stop - start) / (amp.length : ℚ)) * (i : ℚ)
      amp := ((amp.getD i 0 : ℕ) : ℚ) }

/-- `float get_average_amplitude(Datapoint *data, int length)`: sum of the
amplitudes divided by the length. -/
def get_average_amplitude (data : List Datapoint) : ℚ :=
  (data.map Datapoint.amp).sum / (data.length : ℚ)

/-- One update step of the `get_max_peak` scan: keep the current maximum
unless the new point's amplitude is strictly greater. -/
def max_peak_step (m d : Datapoint) : Datapoint :=
  if m.amp < d.amp then d else m

/-- `Datapoint get_max_peak(Datapoint *data, int length)`: scan starting
from the sentinel `{amp = -1, dist = -1}`, replacing it whenever
`data[i].amp > max.amp`. -/
def get_max_peak (data : List Datapoint) : Datapoint :=
  data.foldl max_peak_step { dist := -1, amp := -1 }

/-- A token in the sample section of a calibration file: a numeric token
scannable by `%hu`, or a non-numeric token. -/
inductive ScanTok where
  | num (v : ℕ)
  | bad
deriving DecidableEq

/-- One `fscanf(fin, "%hu", ...)` call: result code (1 = scanned, 0 =
matching failure, -1 = EOF), the scanned value if any, and the remaining
input.  A matching failure does not consume the offending token. -/
def fscanf_hu : List ScanTok → Int × Option ℕ × List ScanTok
  | [] => (-1, none, [])
  | ScanTok.num v :: rest => (1, some v, rest)
  | ScanTok.bad :: rest => (0, none, ScanTok.bad :: rest)

/-- `res += x` where `res` is a `uint16_t` and `x` an `int`: the int is
reduced mod `2 ^ 16` and the sum wraps mod `2 ^ 16`. -/
def u16_add (r : ℕ) (x : Int) : ℕ :=
  (r + (x.emod 65536).toNat) % 65536

/-- The sample-reading loop of `read_and_calculate_threshold` (lines
327-331): `count` remaining iterations, `i` the current buffer index, `res`
the `uint16_t` accumulator.  Returns the final `res` and the list of
`(index, value)` stores performed on `threshold_data`. -/
def sample_scan_loop : List ScanTok → ℕ → ℕ → ℕ → ℕ × List (ℕ × ℕ)
  | _, _, res, 0 => (res, [])
  | toks, i, res, count + 1 =>
    let s := fscanf_hu toks
    let rest := sample_scan_loop s.2.2 (i + 1) (u16_add res s.1) count
    match s.2.1 with
    | some v => (rest.1, (i, v) :: rest.2)
    | none => rest

/-- The header accumulation (lines 318-320): `res = fscanf(...); res +=
fscanf(...); res += fscanf(...)` on a `uint16_t`, where each `h` is the int
returned by one header `fscanf` (1, 0 or -1). -/
def header_res (h1 h2 h3 : Int) : ℕ :=
  u16_add (u16_add ((h1.emod 65536).toNat) h2) h3

/-- Whether `read_and_calculate_threshold` hits a fatal
"Calibration data file format error": header check `res != 3` (line 322),
then sample check `res != n` (line 333). -/
def read_calibration_fatal (h1 h2 h3 : Int) (toks : List ScanTok) (n : ℕ) : Bool :=
  if header_res h1 h2 h3 = 3 then decide ((sample_scan_loop toks 0 0 n).1 ≠ n)
  else true

/-- Number of successfully scanned header fields. -/
def header_scanned (h1 h2 h3 : Int) : ℕ :=
  (if h1 = 1 then 1 else 0) + (if h2 = 1 then 1 else 0) + (if h3 = 1 then 1 else 0)

/-- Number of successfully scanned sample tokens. -/
def samples_scanned (toks : List ScanTok) (n : ℕ) : ℕ :=
  (sample_scan_loop toks 0 0 n).2.length

/-- `memset(buf, 0, nbytes)` on a `uint16_t` buffer: element `i` occupies
bytes `2*i` (low byte, little-endian) and `2*i + 1`.  Elements fully inside
the zeroed byte prefix become 0; when `nbytes` is odd, the element
straddling the boundary keeps only its high byte. -/
def memset_zero_bytes (l : List ℕ) (nbytes : ℕ) : List ℕ :=
  (List.range l.length).map fun i : ℕ =>
    if 2 * i + 2 ≤ nbytes then 0
    else if 2 * i + 1 ≤ nbytes then l.getD i 0 / 256 * 256
    else l.getD i 0

/-- The outputs of `read_and_calculate_threshold`: the adjusted
configuration and the three out-parameters. -/
structure threshold_result where
  config : app_configuration
  avg_calib_amp : ℚ
  peak_amp : Datapoint
  avg_amp_factor : ℚ
deriving DecidableEq

/-- `read_and_calculate_threshold` on its success path (file opened, both
`res` checks passed): `fstart`, `flength`, `n` are the parsed header values
and `samples` the `n` values the scan loop stored in `threshold_data`.
Mirrors lines 338-359: conditional configuration adjustment, clamp
`n = min(n, MAX_DATA_SIZE)`, `memset(threshold_data, 0, n)` — note this
zeroes the first `n` BYTES of the buffer just filled — then `format_data`
over the adjusted range, `get_average_amplitude`, `get_max_peak`, and
`avg_amp_factor = peak_amp.amp / avg_calib_amp`. -/
def read_and_calculate_threshold (app : app_configuration) (fstart flength : ℚ)
    (n : ℕ) (samples : List ℕ) : threshold_result :=
  let rc0 := app.radar_config
  let rc1 := if fstart ≠ rc0.start_range then { rc0 with start_range := fstart } else rc0
  let rc2 := if flength < rc1.length_range then { rc1 with length_range := flength } else rc1
  let n2 := min n MAX_DATA_SIZE
  let buf := memset_zero_bytes (samples.take n2) n2
  let th_data := format_data buf rc2.start_range (rc2.start_range + rc2.length_range)
  let avg := get_average_amplitude th_data
  let peak := get_max_peak th_data
  { config := { app with radar_config := rc2 }
    avg_calib_amp := avg
    peak_amp := peak
    avg_amp_factor := peak.amp / avg }

/-- The Threshold Model as the spec words it (§4.4), for comparison with
the code: map the record's `samples` over `[start, start + length)` via the
Range Mapper, then average, max peak and ratio. -/
def threshold_model_spec (fstart flength : ℚ) (samples : List ℕ) : ℚ × Datapoint × ℚ :=
  let th_data := format_data samples fstart (fstart + flength)
  let avg := get_average_amplitude th_data
  let peak := get_max_peak th_data
  (avg, peak, peak.amp / avg)

/-- `%f` prints a float with six digits after the decimal point; on the
exactly-representable values the round-trip claim is about, this is
rounding to the nearest multiple of `1 / 10 ^ 6`. -/
def round6 (x : ℚ) : ℚ :=
  ((⌊x * 1000000 + 1/2⌋ : ℤ) : ℚ) / 1000000

/-- A calibration file at token level: the values on the three header lines
and the sample tokens that follow. -/
structure CalFile where
  hstart : ℚ
  hlength : ℚ
  hcount : ℕ
  toks : List ScanTok
deriving DecidableEq

/-- The format-producing part of `write_calibration_data` (lines 483-490):
the captured sweep `data` is emitted as the `start`/`length`/`n` header
lines (floats printed by `%f`, i.e. rounded to six decimals) followed by
the space-separated sample integers. -/
def write_calibration_data (start_range length_range : ℚ) (data : List ℕ) : CalFile :=
  { hstart := round6 start_range
    hlength := round6 length_range
    hcount := data.length
    toks := data.map ScanTok.num }

/-- The parsing part of `read_and_calculate_threshold` (lines 318-336) on a
token-level file whose header lines scanned: the sample section is scanned
`n` times and checked against `res != n`; `none` models the fatal format
error, `some` returns the record as parsed. -/
def read_calibration_record (f : CalFile) : Option (ℚ × ℚ × ℕ × List ℕ) :=
  let scan := sample_scan_loop f.toks 0 0 f.hcount
  if scan.1 = f.hcount then some (f.hstart, f.hlength, f.hcount, scan.2.map Prod.snd)
  else none

/-- Classification of one acquired sweep inside `get_detection`: format
the raw sweep over the configured range, take the max peak, classify. -/
def sweep_classification (rc : radar_configuration) (avg_calib_amp avg_amp_factor : ℚ)
    (sweep : List ℕ) : ℤ :=
  car_present (get_max_peak (format_data sweep rc.start_range
    (rc.start_range + rc.length_range))).amp avg_calib_amp avg_amp_factor

/-- The `while (first_res != result)` debounce loop of `get_detection`
(lines 529-542).  `cls k` is the classification of the `k`-th acquired
sweep, `i` the index of the next sweep to acquire, `sleeps` the number of
`sleep` calls so far.  `fuel` bounds the iterations (the C loop is
unbounded); `none` means the fuel ran out with the loop still going. -/
def detection_loop (cls : ℕ → ℤ) : ℕ → ℤ → ℤ → ℕ → ℕ → Option (ℤ × ℕ)
  | fuel, first_res, result, i, sleeps =>
    if first_res = result then some (result, sleeps)
    else
      match fuel with
      | 0 => none
      | f + 1 => detection_loop cls f result (cls i) (i + 1) (sleeps + 1)

/-- `get_detection` (lines 508-547): classify the first sweep; in delayed
mode run the debounce loop with `first_res` initialised to the sentinel
`-2`.  Returns the final result and the number of `sleep` calls. -/
def get_detection (delay : Bool) (rc : radar_configuration)
    (avg_calib_amp avg_amp_factor : ℚ) (sweeps : ℕ → List ℕ) (fuel : ℕ) :
    Option (ℤ × ℕ) :=
  let cls := fun k => sweep_classification rc avg_calib_amp avg_amp_factor (sweeps k)
  let result := cls 0
  if delay then detection_loop cls fuel (-2) result 1 0
  else some (result, 0)

/-! ### Helper lemmas about the `get_max_peak` scan -/

lemma getD_mem {α : Type} [Inhabited α] (l : List α) (j : ℕ) (h : j < l.length) :
    l.getD j default ∈ l := by
  rw [List.getD_eq_getElem l default h]
  exact List.getElem_mem h

lemma max_peak_fold_eq_or_mem (l : List Datapoint) (m : Datapoint) :
    l.foldl max_peak_step m = m ∨ l.foldl max_peak_step m ∈ l := by
  induction l generalizing m with
  | nil => exact Or.inl rfl
  | cons d rest ih =>
    simp only [List.foldl_cons]
    rcases ih (max_peak_step m d) with h | h
    · rw [h]
      unfold max_peak_step
      split
      · exact Or.inr (List.mem_cons_self _ _)
      · exact Or.inl rfl
    · exact Or.inr (List.mem_cons_of_mem _ h)

lemma max_peak_fold_ge_init (l : List Datapoint) (m : Datapoint) :
    m.amp ≤ (l.foldl max_peak_step m).amp := by
  induction l generalizing m with
  | nil => simp
  | cons d rest ih =>
    simp only [List.foldl_cons]
    refine le_trans ?_ (ih (max_peak_step m d))
    unfold max_peak_step
    split
    · exact le_of_lt (by assumption)
    · exact le_refl _

lemma max_peak_fold_ge_all (l : List Datapoint) (m : Datapoint) :
    ∀ d ∈ l, d.amp ≤ (l.foldl max_peak_step m).amp := by
  induction l generalizing m with
  | nil => simp
  | cons d rest ih =>
    intro e he
    simp only [List.foldl_cons]
    rcases List.mem_cons.mp he with rfl | he'
    · refine le_trans ?_ (max_peak_fold_ge_init rest (max_peak_step m e))
      unfold max_peak_step
      split
      · exact le_refl _
      · exact le_of_not_lt (by assumption)
    · exact ih (max_peak_step m d) e he'

lemma max_peak_fold_of_le (l : List Datapoint) (m : Datapoint)
    (h : ∀ d ∈ l, d.amp ≤ m.amp) : l.foldl max_peak_step m = m := by
  induction l with
  | nil => rfl
  | cons d rest ih =>
    have hd : d.amp ≤ m.amp := h d (List.mem_cons_self _ _)
    have hstep : max_peak_step m d = m := by
      unfold max_peak_step
      rw [if_neg (not_lt.mpr hd)]
    simp only [List.foldl_cons, hstep]
    exact ih (fun e he => h e (List.mem_cons_of_mem _ he))

/-- The scan keeps the first element that strictly beats everything before
it (and the initial value) and is not exceeded by anything after it. -/
lemma max_peak_fold_first (l : List Datapoint) (m : Datapoint)
    (hex : ∃ d ∈ l, m.amp < d.amp) :
    ∃ i : ℕ, i < l.length ∧ l.foldl max_peak_step m = l.getD i default ∧
      m.amp < (l.getD i default).amp ∧
      (∀ j, j < i → (l.getD j default).amp < (l.getD i default).amp) ∧
      (∀ j, i < j → j < l.length → (l.getD j default).amp ≤ (l.getD i default).amp) := by
  induction l generalizing m with
  | nil => simp at hex
  | cons d rest ih =>
    simp only [List.foldl_cons]
    by_cases hmd : m.amp < d.amp
    · have hstep : max_peak_step m d = d := by
        unfold max_peak_step
        rw [if_pos hmd]
      rw [hstep]
      by_cases hre : ∃ e ∈ rest, d.amp < e.amp
      · obtain ⟨i, hi, heq, hgt, hbef, haft⟩ := ih d hre
        refine ⟨i + 1, by simpa using Nat.succ_lt_succ hi, ?_, ?_, ?_, ?_⟩
        · simpa [List.getD_cons_succ] using heq
        · simpa [List.getD_cons_succ] using lt_trans hmd hgt
        · intro j hj
          match j with
          | 0 => simpa [List.getD_cons_zero, List.getD_cons_succ] using hgt
          | k + 1 =>
            simpa [List.getD_cons_succ] using hbef k (by omega)
        · intro j h1 h2
          match j with
          | k + 1 =>
            simpa [List.getD_cons_succ] using haft k (by omega) (by simpa using h2)
      · push_neg at hre
        have hres : rest.foldl max_peak_step d = d := max_peak_fold_of_le rest d hre
        refine ⟨0, by simp, by simpa [List.getD_cons_zero] using hres,
          by simpa [List.getD_cons_zero] using hmd, by omega, ?_⟩
        intro j h1 h2
        match j with
        | k + 1 =>
          simp only [List.getD_cons_succ, List.getD_cons_zero]
          exact hre _ (getD_mem rest k (by simpa using h2))
    · have hstep : max_peak_step m d = m := by
        unfold max_peak_step
        rw [if_neg hmd]
      rw [hstep]
      have hre : ∃ e ∈ rest, m.amp < e.amp := by
        obtain ⟨e, he, hlt⟩ := hex
        rcases List.mem_cons.mp he with rfl | he'
        · exact absurd hlt hmd
        · exact ⟨e, he', hlt⟩
      obtain ⟨i, hi, heq, hgt, hbef, haft⟩ := ih m hre
      refine ⟨i + 1, by simpa using Nat.succ_lt_succ hi, ?_, ?_, ?_, ?_⟩
      · simpa [List.getD_cons_succ] using heq
      · simpa [List.getD_cons_succ] using hgt
      · intro j hj
        match j with
        | 0 =>
          simpa [List.getD_cons_zero, List.getD_cons_succ] using
            lt_of_le_of_lt (not_lt.mp hmd) hgt
        | k + 1 =>
          simpa [List.getD_cons_succ] using hbef k (by omega)
      · intro j h1 h2
        match j with
        | k + 1 =>
          simpa [List.getD_cons_succ] using haft k (by omega) (by simpa using h2)

/-! ### Helper lemmas about the sample scan loop -/

/-- Length of the maximal prefix of numeric tokens. -/
def lead_nums : List ScanTok → ℕ
  | ScanTok.num _ :: rest => lead_nums rest + 1
  | _ => 0

/-- Whether every token is numeric. -/
def all_nums : List ScanTok → Bool
  | [] => true
  | ScanTok.num _ :: rest => all_nums rest
  | ScanTok.bad :: _ => false

/-- How many of the `count` scans succeed: the numeric prefix is consumed,
a non-numeric token blocks every later scan. -/
def succ_scans (toks : List ScanTok) (count : ℕ) : ℕ :=
  min (lead_nums toks) count

/-- How many of the `count` scans return EOF: only possible when the token
list is all numeric and runs out. -/
def eof_scans (toks : List ScanTok) (count : ℕ) : ℕ :=
  if all_nums toks then count - toks.length else 0

lemma lead_nums_le_length : ∀ toks : List ScanTok, lead_nums toks ≤ toks.length := by
  intro toks
  induction toks with
  | nil => simp [lead_nums]
  | cons t rest ih =>
    cases t with
    | num v => simpa [lead_nums] using ih
    | bad => simp [lead_nums]

lemma succ_scans_add_eof_scans_le (toks : List ScanTok) (count : ℕ) :
    succ_scans toks count + eof_scans toks count ≤ count := by
  have h := lead_nums_le_length toks
  unfold succ_scans eof_scans
  split_ifs <;> omega

/-- Value of the wrapped accumulator `S` successes and `E` EOFs produce:
`S - E` when `E ≤ S`, otherwise it wraps to `65536 - (E - S)`. -/
lemma u16_sum_value (S E : ℕ) (hS : S < 65536) (hE : E < 32768) :
    (0 + S + 65535 * E) % 65536 = if E ≤ S then S - E else 65536 - (E - S) := by
  split_ifs with h
  · have e : 0 + S + 65535 * E = (S - E) + 65536 * E := by omega
    rw [e, Nat.add_mul_mod_self_left]
    exact Nat.mod_eq_of_lt (by omega)
  · have e : 0 + S + 65535 * E = (65536 - (E - S)) + 65536 * (E - 1) := by omega
    rw [e, Nat.add_mul_mod_self_left]
    exact Nat.mod_eq_of_lt (by omega)

/-- The final value of the `uint16_t` accumulator `res` of the scan loop:
each success adds 1, each EOF adds `-1` (that is, 65535 mod `2 ^ 16`). -/
lemma scan_loop_res : ∀ (count : ℕ) (toks : List ScanTok) (i res : ℕ), res < 65536 →
    (sample_scan_loop toks i res count).1
      = (res + succ_scans toks count + 65535 * eof_scans toks count) % 65536 := by
  intro count
  induction count with
  | zero =>
    intro toks i res hres
    simp [sample_scan_loop, succ_scans, eof_scans, Nat.mod_eq_of_lt hres]
  | succ count ihc =>
    intro toks i res hres
    cases toks with
    | nil =>
      have h1 : ((-1 : Int).emod 65536).toNat = 65535 := by decide
      have h2 := ihc [] (i + 1) ((res + 65535) % 65536) (Nat.mod_lt _ (by norm_num))
      simp only [sample_scan_loop, fscanf_hu, u16_add, h1] at h2 ⊢
      rw [h2]
      simp only [succ_scans, eof_scans, lead_nums, all_nums, List.length_nil, if_pos]
      omega
    | cons t rest =>
      cases t with
      | num v =>
        have h1 : ((1 : Int).emod 65536).toNat = 1 := by decide
        have h2 := ihc rest (i + 1) ((res + 1) % 65536) (Nat.mod_lt _ (by norm_num))
        simp only [sample_scan_loop, fscanf_hu, u16_add, h1] at h2 ⊢
        rw [h2]
        simp only [succ_scans, eof_scans, lead_nums, all_nums, List.length_cons]
        split_ifs <;> omega
      | bad =>
        have h1 : ((0 : Int).emod 65536).toNat = 0 := by decide
        have h2 := ihc (ScanTok.bad :: rest) (i + 1) ((res + 0) % 65536) (Nat.mod_lt _ (by norm_num))
        simp only [sample_scan_loop, fscanf_hu, u16_add, h1] at h2 ⊢
        rw [h2]
        simp only [succ_scans, eof_scans, lead_nums, all_nums, if_neg, Bool.false_eq_true,
          not_false_eq_true]
        omega

/-- Each successful scan performs exactly one store. -/
lemma scan_loop_writes_length : ∀ (count : ℕ) (toks : List ScanTok) (i res : ℕ),
    (sample_scan_loop toks i res count).2.length = succ_scans toks count := by
  intro count
  induction count with
  | zero =>
    intro toks i res
    simp [sample_scan_loop, succ_scans]
  | succ count ihc =>
    intro toks i res
    cases toks with
    | nil =>
      simp only [sample_scan_loop, fscanf_hu]
      rw [ihc [] (i + 1) _]
      simp [succ_scans, lead_nums]
    | cons t rest =>
      cases t with
      | num v =>
        simp only [sample_scan_loop, fscanf_hu, List.length_cons]
        rw [ihc rest (i + 1) _]
        simp only [succ_scans, lead_nums]
        omega
      | bad =>
        simp only [sample_scan_loop, fscanf_hu]
        rw [ihc (ScanTok.bad :: rest) (i + 1) _]
        simp [succ_scans, lead_nums]

/-- On an all-numeric token list, the stores target consecutive buffer
indices starting at `i`. -/
lemma scan_loop_writes_fst : ∀ (count : ℕ) (vs : List ℕ) (i res : ℕ), count ≤ vs.length →
    (sample_scan_loop (vs.map ScanTok.num) i res count).2.map Prod.fst
      = List.range' i count := by
  intro count
  induction count with
  | zero =>
    intro vs i res _
    simp [sample_scan_loop, List.range']
  | succ count ihc =>
    intro vs i res hc
    cases vs with
    | nil => simp at hc
    | cons v rest =>
      simp only [List.map_cons, sample_scan_loop, fscanf_hu, List.map_cons, List.range']
      rw [ihc rest (i + 1) _ (by simpa using hc)]

/-- On an all-numeric token list, the stored values are the scanned ones in
order. -/
lemma scan_loop_writes_snd : ∀ (count : ℕ) (vs : List ℕ) (i res : ℕ), count ≤ vs.length →
    (sample_scan_loop (vs.map ScanTok.num) i res count).2.map Prod.snd
      = vs.take count := by
  intro count
  induction count with
  | zero =>
    intro vs i res _
    simp [sample_scan_loop]
  | succ count ihc =>
    intro vs i res hc
    cases vs with
    | nil => simp at hc
    | cons v rest =>
      simp only [List.map_cons, sample_scan_loop, fscanf_hu, List.take_succ_cons]
      rw [ihc rest (i + 1) _ (by simpa using hc)]

lemma lead_nums_map_num (vs : List ℕ) : lead_nums (vs.map ScanTok.num) = vs.length := by
  induction vs with
  | nil => simp [lead_nums]
  | cons v rest ih => simp [lead_nums, ih]

lemma all_nums_map_num (vs : List ℕ) : all_nums (vs.map ScanTok.num) = true := by
  induction vs with
  | nil => rfl
  | cons v rest ih => simpa [all_nums] using ih

/-! ### Helper lemmas about the detection loop -/

lemma car_present_cases (p b r : ℚ) : car_present p b r = 0 ∨ car_present p b r = 1 := by
  unfold car_present
  split_ifs <;> simp

lemma detection_loop_succ (cls : ℕ → ℤ) (fuel : ℕ) (first_res result : ℤ) (i sleeps : ℕ) :
    detection_loop cls (fuel + 1) first_res result i sleeps
      = if first_res = result then some (result, sleeps)
        else detection_loop cls fuel result (cls i) (i + 1) (sleeps + 1) := rfl

lemma detection_loop_of_eq (cls : ℕ → ℤ) (fuel : ℕ) (first_res result : ℤ)
    (i sleeps : ℕ) (h : first_res = result) :
    detection_loop cls fuel first_res result i sleeps = some (result, sleeps) := by
  cases fuel with
  | zero =>
    show (if first_res = result then some (result, sleeps) else none) = _
    rw [if_pos h]
  | succ f =>
    rw [detection_loop_succ, if_pos h]

/-- Running the debounce loop from sweep `i` (with `first_res` differing
from the current result `cls (i - 1)`): if `istar` is the first index at
which a classification repeats its predecessor, the loop stops there and
returns it, having slept `istar` times. -/
lemma detection_loop_reaches (cls : ℕ → ℤ) (istar : ℕ)
    (hstar : cls istar = cls (istar - 1))
    (hmin : ∀ j, j < istar → 1 ≤ j → cls j ≠ cls (j - 1)) :
    ∀ (fuel i : ℕ) (first_res : ℤ), 1 ≤ i → i ≤ istar → first_res ≠ cls (i - 1) →
      istar - i < fuel →
      detection_loop cls fuel first_res (cls (i - 1)) i (i - 1)
        = some (cls istar, istar) := by
  intro fuel
  induction fuel with
  | zero => intro i first_res h1 h2 h3 h4; omega
  | succ f ihf =>
    intro i first_res h1 h2 h3 h4
    rw [detection_loop_succ, if_neg h3]
    have e1 : i - 1 + 1 = i := by omega
    rw [e1]
    by_cases hi : i = istar
    · subst hi
      exact detection_loop_of_eq cls f _ _ (i + 1) i hstar.symm
    · have hlt : i < istar := lt_of_le_of_ne h2 hi
      have hne : cls (i - 1) ≠ cls i := (hmin i hlt h1).symm
      have h := ihf (i + 1) (cls (i - 1)) (by omega) (by omega)
        (by rw [Nat.add_sub_cancel]; exact hne) (by omega)
      rw [Nat.add_sub_cancel] at h
      exact h

/-! ### Claim theorems -/

/-- C1: the claim fails on the code.  For the valid calibration record
{start = 0.12, length = 0.48, n = 4, samples = [10, 20, 30, 40]} read under
the default configuration, the `memset(threshold_data, 0, n)` the code runs
AFTER the scan loop (line 351) zeroes the first `n` bytes — the first two
samples — so the computed baseline is 17.5, while the arithmetic mean of
the record's mapped sample amplitudes (the claimed baseline, §4.4) is 25. -/
theorem C1_baseline_memset_bug :
    (read_and_calculate_threshold init_configuration (12/100) (48/100) 4
        [10, 20, 30, 40]).avg_calib_amp = 35/2 ∧
    (threshold_model_spec (12/100) (48/100) [10, 20, 30, 40]).1 = 25 ∧
    (35/2 : ℚ) ≠ 25 := by
  refine ⟨?_, ?_, by norm_num⟩
  · norm_num [read_and_calculate_threshold, memset_zero_bytes, format_data,
      get_average_amplitude, init_configuration, MAX_DATA_SIZE, List.range_succ]
  · norm_num [threshold_model_spec, format_data, get_average_amplitude, List.range_succ]

/-- C3: `car_present` returns Occupied (1) iff
`peak > baseline * ratio * 4`, Empty (0) otherwise; at the boundary
(peak 8, baseline 2, ratio 1) it returns Empty. -/
theorem C3_classifier_rule :
    (∀ p b r : ℚ, (car_present p b r = 1 ↔ b * r * 4 < p) ∧
      (car_present p b r = 0 ↔ p ≤ b * r * 4)) ∧
    car_present 8 2 1 = 0 := by
  constructor
  · intro p b r
    unfold car_present
    split_ifs with h
    · constructor
      · simp [not_lt.mpr h]
      · simp [h]
    · constructor
      · simp [not_le.mp h]
      · simp [h]
  · norm_num [car_present]

/-- C4: the claim fails on the code.  For a file whose header claims
n = 3001 followed by 3001 numeric sample tokens, the scan loop stores the
3001st sample at buffer index 3000 = MAX_DATA_SIZE — one past the last
valid index of `threshold_data[MAX_DATA_SIZE]` — because the clamp
`n = min(n, MAX_DATA_SIZE)` (line 350) runs only after the loop. -/
theorem C4_overrun_store :
    MAX_DATA_SIZE = 3000 ∧
    3000 ∈ (sample_scan_loop ((List.replicate 3001 (7 : ℕ)).map ScanTok.num)
        0 0 3001).2.map Prod.fst := by
  refine ⟨rfl, ?_⟩
  rw [scan_loop_writes_fst 3001 (List.replicate 3001 7) 0 0
    (by rw [List.length_replicate])]
  exact List.mem_range'.mpr ⟨3000, by omega, by omega⟩

/-- C9 counterexample: on the non-empty input [{dist 2, amp -1}] the scan
never updates its sentinel (−1 > −1 fails), so `get_max_peak` returns
{dist −1, amp −1}, which is not an element of the input at all — in
particular not the first point whose amplitude is strictly greater than
all earlier and not exceeded by later amplitudes (vacuously, that is the
input's only point). -/
theorem C9_counterexample :
    get_max_peak [{ dist := 2, amp := -1 }] = { dist := -1, amp := -1 } ∧
    ({ dist := -1, amp := -1 } : Datapoint)
      ∉ ([{ dist := 2, amp := -1 }] : List Datapoint) := by
  decide

/-- C9 (amended): for every sequence of data points containing at least one
amplitude above the sentinel −1 (in particular every sequence from unsigned
hardware samples), `get_max_peak` returns the first data point whose
amplitude is strictly greater than all earlier amplitudes and not exceeded
by any later amplitude; on [3, 7, 2, 7] that is index 1, not 3 (witness). -/
theorem C9_first_max (l : List Datapoint) (hex : ∃ d ∈ l, -1 < d.amp) :
    ∃ i : ℕ, i < l.length ∧ get_max_peak l = l.getD i default ∧
      (∀ j, j < i → (l.getD j default).amp < (l.getD i default).amp) ∧
      (∀ j, i < j → j < l.length → (l.getD j default).amp ≤ (l.getD i default).amp) := by
  have h := max_peak_fold_first l { dist := -1, amp := -1 } (by simpa using hex)
  obtain ⟨i, hi, heq, _, hbef, haft⟩ := h
  exact ⟨i, hi, heq, hbef, haft⟩

/-- C9 witness: the amended claim at the spec's example [3, 7, 2, 7]
(distances 0, 1, 2, 3); the returned point is the one at index 1. -/
theorem C9_first_max_witness :
    (∃ d ∈ ([⟨0, 3⟩, ⟨1, 7⟩, ⟨2, 2⟩, ⟨3, 7⟩] : List Datapoint), -1 < d.amp) ∧
    (∃ i : ℕ, i < ([⟨0, 3⟩, ⟨1, 7⟩, ⟨2, 2⟩, ⟨3, 7⟩] : List Datapoint).length ∧
      get_max_peak [⟨0, 3⟩, ⟨1, 7⟩, ⟨2, 2⟩, ⟨3, 7⟩]
          = ([⟨0, 3⟩, ⟨1, 7⟩, ⟨2, 2⟩, ⟨3, 7⟩] : List Datapoint).getD i default ∧
      (∀ j, j < i →
        (([⟨0, 3⟩, ⟨1, 7⟩, ⟨2, 2⟩, ⟨3, 7⟩] : List Datapoint).getD j default).amp
          < (([⟨0, 3⟩, ⟨1, 7⟩, ⟨2, 2⟩, ⟨3, 7⟩] : List Datapoint).getD i default).amp) ∧
      (∀ j, i < j → j < ([⟨0, 3⟩, ⟨1, 7⟩, ⟨2, 2⟩, ⟨3, 7⟩] : List Datapoint).length →
        (([⟨0, 3⟩, ⟨1, 7⟩, ⟨2, 2⟩, ⟨3, 7⟩] : List Datapoint).getD j default).amp
          ≤ (([⟨0, 3⟩, ⟨1, 7⟩, ⟨2, 2⟩, ⟨3, 7⟩] : List Datapoint).getD i default).amp)) ∧
    get_max_peak [⟨0, 3⟩, ⟨1, 7⟩, ⟨2, 2⟩, ⟨3, 7⟩]
        = ([⟨0, 3⟩, ⟨1, 7⟩, ⟨2, 2⟩, ⟨3, 7⟩] : List Datapoint).getD 1 default :=
  ⟨by decide, C9_first_max _ (by decide), by decide⟩

/-- C10: on a non-empty sequence whose amplitudes are all ≥ 0 (as holds for
points built from unsigned hardware samples), `get_max_peak` returns an
element of the input whose amplitude dominates every amplitude, and never
the initial sentinel {dist −1, amp −1}. -/
theorem C10_peak_in_input (l : List Datapoint) (hne : l ≠ [])
    (hnn : ∀ d ∈ l, 0 ≤ d.amp) :
    get_max_peak l ∈ l ∧ (∀ d ∈ l, d.amp ≤ (get_max_peak l).amp) ∧
    get_max_peak l ≠ { dist := -1, amp := -1 } := by
  cases l with
  | nil => exact absurd rfl hne
  | cons d0 t =>
    have hall : ∀ d ∈ d0 :: t, d.amp ≤ (get_max_peak (d0 :: t)).amp :=
      max_peak_fold_ge_all (d0 :: t) { dist := -1, amp := -1 }
    have h0 : d0.amp ≤ (get_max_peak (d0 :: t)).amp := hall d0 (List.mem_cons_self _ _)
    have hd0 : 0 ≤ d0.amp := hnn d0 (List.mem_cons_self _ _)
    have hsent : get_max_peak (d0 :: t) ≠ { dist := -1, amp := -1 } := by
      intro he
      rw [he] at h0
      simp only at h0
      linarith
    refine ⟨?_, hall, hsent⟩
    rcases max_peak_fold_eq_or_mem (d0 :: t) { dist := -1, amp := -1 } with he | hm
    · exact absurd he hsent
    · exact hm

/-- C10 witness: the claim at the one-point input {dist 0, amp 5}. -/
theorem C10_peak_in_input_witness :
    ([{ dist := 0, amp := 5 }] : List Datapoint) ≠ [] ∧
    (∀ d ∈ ([{ dist := 0, amp := 5 }] : List Datapoint), 0 ≤ d.amp) ∧
    (get_max_peak [{ dist := 0, amp := 5 }]
        ∈ ([{ dist := 0, amp := 5 }] : List Datapoint) ∧
      (∀ d ∈ ([{ dist := 0, amp := 5 }] : List Datapoint),
        d.amp ≤ (get_max_peak [{ dist := 0, amp := 5 }]).amp) ∧
      get_max_peak [{ dist := 0, amp := 5 }] ≠ { dist := -1, amp := -1 }) :=
  ⟨by decide, by decide, C10_peak_in_input _ (by decide) (by decide)⟩

/-- C2: in debounced mode (`delay` configured) the detection loop returns
the classification of the first sweep `istar ≥ 1` whose classification
equals the immediately preceding sweep's, after `istar` sleeps; in
single-shot mode it returns the first sweep's classification with no
sleep.  The witness runs the classification sequence
[Occupied, Empty, Empty]: the loop stops after the third sweep (two
sleeps) and returns Empty. -/
theorem C2_debounce_loop (rc : radar_configuration) (b r : ℚ)
    (sweeps : ℕ → List ℕ) (fuel istar : ℕ) (h1 : 1 ≤ istar)
    (hstar : sweep_classification rc b r (sweeps istar)
      = sweep_classification rc b r (sweeps (istar - 1)))
    (hmin : ∀ j, j < istar → 1 ≤ j →
      sweep_classification rc b r (sweeps j)
        ≠ sweep_classification rc b r (sweeps (j - 1)))
    (hfuel : istar ≤ fuel) :
    get_detection true rc b r sweeps fuel
        = some (sweep_classification rc b r (sweeps istar), istar) ∧
    get_detection false rc b r sweeps fuel
        = some (sweep_classification rc b r (sweeps 0), 0) := by
  constructor
  · have hne : (-2 : ℤ) ≠ sweep_classification rc b r (sweeps 0) := by
      rcases car_present_cases (get_max_peak (format_data (sweeps 0) rc.start_range
          (rc.start_range + rc.length_range))).amp b r with h | h <;>
        simp [sweep_classification, h]
    have h := detection_loop_reaches
      (fun k => sweep_classification rc b r (sweeps k)) istar hstar hmin fuel 1 (-2)
      le_rfl h1 hne (by omega)
    simpa [get_detection] using h
  · simp [get_detection]

/-- C2 witness: with calibration baseline 1 and ratio 1 over range [0, 1),
the sweep sequence [10], [0], [0], ... classifies as
[Occupied, Empty, Empty, ...]; debounced mode returns Empty (0) after two
sleeps (three sweeps), single-shot returns Occupied (1) with no sleep. -/
theorem C2_debounce_loop_witness :
    get_detection true ⟨0, 1, 1, 100, 1⟩ 1 1 (fun k => if k = 0 then [10] else [0]) 2
        = some (0, 2) ∧
    get_detection false ⟨0, 1, 1, 100, 1⟩ 1 1 (fun k => if k = 0 then [10] else [0]) 2
        = some (1, 0) := by
  have h := C2_debounce_loop ⟨0, 1, 1, 100, 1⟩ 1 1 (fun k => if k = 0 then [10] else [0]) 2 2
    (by norm_num)
    (by norm_num [sweep_classification])
    (by
      intro j hj h1j
      have hj1 : j = 1 := by omega
      subst hj1
      norm_num [sweep_classification, car_present, format_data, get_max_peak,
        max_peak_step, List.range_succ])
    (by norm_num)
  constructor
  · rw [h.1]
    norm_num [sweep_classification, car_present, format_data, get_max_peak,
      max_peak_step, List.range_succ]
  · rw [h.2]
    norm_num [sweep_classification, car_present, format_data, get_max_peak,
      max_peak_step, List.range_succ]

/-- C5 counterexample: a file whose header scans completely but claims
n = 32768 with an empty sample section.  All 32768 sample scans return EOF
(-1); the 16-bit accumulator `res` wraps to exactly 32768, the `res != n`
check passes, and no fatal error is raised even though only 3 of the
expected 3 + 32768 fields were successfully scanned — refuting the claimed
equivalence. -/
theorem C5_counterexample :
    read_calibration_fatal 1 1 1 [] 32768 = false ∧
    header_scanned 1 1 1 + samples_scanned [] 32768 ≠ 3 + 32768 := by
  have hres := scan_loop_res 32768 [] 0 0 (by norm_num)
  have hwl := scan_loop_writes_length 32768 [] 0 0
  have hval : (sample_scan_loop [] 0 0 32768).1 = 32768 := by
    rw [hres]
    simp only [succ_scans, eof_scans, lead_nums, all_nums, List.length_nil, if_pos]
    norm_num
  constructor
  · unfold read_calibration_fatal
    rw [if_pos (by decide : header_res 1 1 1 = 3), hval]
    simp
  · unfold samples_scanned
    rw [hwl]
    simp [succ_scans, lead_nums, header_scanned]

/-- C5 (amended): with realistic `fscanf` results (each header field scans
to 1, 0 or EOF = −1) and an expected sample count n < 2^15, reading fails
with the fatal format error exactly when the number of successfully
scanned fields (header plus samples) differs from the expected total
3 + n; in particular a header claiming n = 5 over 3 sample tokens fails
(witness).  For n ≥ 2^15 the 16-bit `res` accumulator can wrap onto `n`
and accept a short file (see the counterexample). -/
theorem C5_format_error_iff (h1 h2 h3 : Int) (toks : List ScanTok) (n : ℕ)
    (d1 : h1 = -1 ∨ h1 = 0 ∨ h1 = 1) (d2 : h2 = -1 ∨ h2 = 0 ∨ h2 = 1)
    (d3 : h3 = -1 ∨ h3 = 0 ∨ h3 = 1) (hn : n < 32768) :
    read_calibration_fatal h1 h2 h3 toks n = true
      ↔ header_scanned h1 h2 h3 + samples_scanned toks n ≠ 3 + n := by
  have hhdr : header_res h1 h2 h3 = 3 ↔ header_scanned h1 h2 h3 = 3 := by
    rcases d1 with rfl | rfl | rfl <;> rcases d2 with rfl | rfl | rfl <;>
      rcases d3 with rfl | rfl | rfl <;> decide
  have hsle : header_scanned h1 h2 h3 ≤ 3 := by
    rcases d1 with rfl | rfl | rfl <;> rcases d2 with rfl | rfl | rfl <;>
      rcases d3 with rfl | rfl | rfl <;> decide
  have hsamp : samples_scanned toks n = succ_scans toks n :=
    scan_loop_writes_length n toks 0 0
  have hres := scan_loop_res n toks 0 0 (by norm_num)
  have hbound := succ_scans_add_eof_scans_le toks n
  have hsuc : succ_scans toks n ≤ n := min_le_right _ _
  unfold read_calibration_fatal
  split_ifs with hh
  · have h3' : header_scanned h1 h2 h3 = 3 := hhdr.mp hh
    rw [h3', hsamp]
    simp only [decide_eq_true_eq]
    rw [hres, u16_sum_value _ _ (by omega) (by omega)]
    split_ifs <;> omega
  · have hne3 : header_scanned h1 h2 h3 ≠ 3 := fun hc => hh (hhdr.mpr hc)
    have hsn : samples_scanned toks n ≤ n := by rw [hsamp]; exact hsuc
    constructor
    · intro _
      omega
    · intro _
      rfl

/-- C5 witness: header fine, n = 5 but only 3 sample tokens: `res` ends at
3 − 2 = 1 ≠ 5, so the read is fatal, exactly as the amended claim states
(8 fields scanned of the expected 10). -/
theorem C5_format_error_iff_witness :
    ((1 : Int) = -1 ∨ (1 : Int) = 0 ∨ (1 : Int) = 1) ∧ (5 : ℕ) < 32768 ∧
    (read_calibration_fatal 1 1 1 [ScanTok.num 1, ScanTok.num 2, ScanTok.num 3] 5 = true
      ↔ header_scanned 1 1 1
          + samples_scanned [ScanTok.num 1, ScanTok.num 2, ScanTok.num 3] 5 ≠ 3 + 5) ∧
    read_calibration_fatal 1 1 1 [ScanTok.num 1, ScanTok.num 2, ScanTok.num 3] 5 = true :=
  ⟨by decide, by decide,
    C5_format_error_iff 1 1 1 [ScanTok.num 1, ScanTok.num 2, ScanTok.num 3] 5
      (by decide) (by decide) (by decide) (by decide),
    by decide⟩

/-- C6: round-trip of the calibration format.  Writing a record whose
start and length survive `%f`'s six-decimal printing and whose sample
count fits the buffer, then parsing the written file, reproduces the
identical start, length, count and samples. -/
theorem C6_roundtrip (s L : ℚ) (data : List ℕ)
    (hs : round6 s = s) (hl : round6 L = L) (hlen : data.length ≤ MAX_DATA_SIZE) :
    read_calibration_record (write_calibration_data s L data)
      = some (s, L, data.length, data) := by
  have hmax : MAX_DATA_SIZE = 3000 := rfl
  have hlen65536 : data.length < 65536 := by omega
  have hres : (sample_scan_loop (data.map ScanTok.num) 0 0 data.length).1
      = data.length := by
    rw [scan_loop_res data.length (data.map ScanTok.num) 0 0 (by norm_num)]
    simp [succ_scans, eof_scans, lead_nums_map_num, all_nums_map_num,
      Nat.mod_eq_of_lt hlen65536]
  have hsnd := scan_loop_writes_snd data.length data 0 0 le_rfl
  simp [read_calibration_record, write_calibration_data, hs, hl, hres, hsnd]

/-- C6 witness: the spec's record {start 0.1, length 0.5, count 3,
samples [10, 20, 30]} round-trips unchanged. -/
theorem C6_roundtrip_witness :
    round6 (1/10) = 1/10 ∧ round6 (1/2) = 1/2 ∧
    ([10, 20, 30] : List ℕ).length ≤ MAX_DATA_SIZE ∧
    read_calibration_record (write_calibration_data (1/10) (1/2) [10, 20, 30])
      = some (1/10, 1/2, 3, [10, 20, 30]) := by
  have hs : round6 (1/10 : ℚ) = 1/10 := by norm_num [round6]
  have hl : round6 (1/2 : ℚ) = 1/2 := by norm_num [round6]
  have hlen : ([10, 20, 30] : List ℕ).length ≤ MAX_DATA_SIZE := by decide
  refine ⟨hs, hl, hlen, ?_⟩
  have h := C6_roundtrip (1/10) (1/2) [10, 20, 30] hs hl hlen
  simpa using h

/-- C7: frame property of the calibration read.  On success the start
range is overwritten exactly when the file's start differs, the length
range is replaced exactly when the file's length is strictly smaller
(never lengthened), and every other configuration field is unchanged. -/
theorem C7_config_adjustment (app : app_configuration) (fstart flength : ℚ)
    (n : ℕ) (samples : List ℕ) :
    (read_and_calculate_threshold app fstart flength n samples).config.radar_config.start_range
        = (if fstart ≠ app.radar_config.start_range then fstart
          else app.radar_config.start_range) ∧
    (read_and_calculate_threshold app fstart flength n samples).config.radar_config.length_range
        = (if flength < app.radar_config.length_range then flength
          else app.radar_config.length_range) ∧
    (read_and_calculate_threshold app fstart flength n samples).config.radar_config.nbr_of_sweeps
        = app.radar_config.nbr_of_sweeps ∧
    (read_and_calculate_threshold app fstart flength n samples).config.radar_config.frequency
        = app.radar_config.frequency ∧
    (read_and_calculate_threshold app fstart flength n samples).config.radar_config.sensor
        = app.radar_config.sensor ∧
    (read_and_calculate_threshold app fstart flength n samples).config.calibrate
        = app.calibrate ∧
    (read_and_calculate_threshold app fstart flength n samples).config.read_calibration_file
        = app.read_calibration_file ∧
    (read_and_calculate_threshold app fstart flength n samples).config.loglevel
        = app.loglevel ∧
    (read_and_calculate_threshold app fstart flength n samples).config.calibration_file_name
        = app.calibration_file_name ∧
    (read_and_calculate_threshold app fstart flength n samples).config.time_delay
        = app.time_delay ∧
    (read_and_calculate_threshold app fstart flength n samples).config.delay
        = app.delay := by
  unfold read_and_calculate_threshold
  by_cases hs : fstart ≠ app.radar_config.start_range <;>
    by_cases hl : flength < app.radar_config.length_range <;>
      simp [hs, hl]

/-- C8: the Range Mapper.  `format_data` over `n = samples.length` samples
and interval [start, stop) yields exactly `n` points with
`dist i = start + i * (stop - start) / n` and `amp i = samples[i]`; hence
the first distance is `start` and, when `stop > start`, distances strictly
increase with step `(stop - start) / n`. -/
theorem C8_range_mapper (samples : List ℕ) (start stop : ℚ) (hne : samples ≠ []) :
    (format_data samples start stop).length = samples.length ∧
    (∀ (i : ℕ) (h : i < (format_data samples start stop).length),
      ((format_data samples start stop).get ⟨i, h⟩).dist
          = start + (i : ℚ) * (stop - start) / (samples.length : ℚ) ∧
      ((format_data samples start stop).get ⟨i, h⟩).amp
          = ((samples.getD i 0 : ℕ) : ℚ)) ∧
    ((format_data samples start stop).getD 0 default).dist = start ∧
    (start < stop → ∀ (i : ℕ) (h : i + 1 < (format_data samples start stop).length),
      ((format_data samples start stop).get ⟨i + 1, h⟩).dist
          = ((format_data samples start stop).get ⟨i, Nat.lt_of_succ_lt h⟩).dist
            + (stop - start) / (samples.length : ℚ) ∧
      ((format_data samples start stop).get ⟨i, Nat.lt_of_succ_lt h⟩).dist
          < ((format_data samples start stop).get ⟨i + 1, h⟩).dist) := by
  have hlen : (format_data samples start stop).length = samples.length := by
    simp [format_data]
  have hget : ∀ (i : ℕ) (h : i < (format_data samples start stop).length),
      (format_data samples start stop).get ⟨i, h⟩
        = { dist := start + ((stop - start) / (samples.length : ℚ)) * (i : ℚ),
            amp := ((samples.getD i 0 : ℕ) : ℚ) } := by
    intro i h
    rw [List.get_eq_getElem]
    simp [format_data]
  have hpos : 0 < samples.length := List.length_pos.mpr hne
  have hq : (0 : ℚ) < (samples.length : ℚ) := by exact_mod_cast hpos
  refine ⟨hlen, ?_, ?_, ?_⟩
  · intro i h
    rw [hget i h]
    constructor
    · show start + ((stop - start) / (samples.length : ℚ)) * (i : ℚ)
          = start + (i : ℚ) * (stop - start) / (samples.length : ℚ)
      ring
    · rfl
  · have h0 : 0 < (format_data samples start stop).length := by rw [hlen]; exact hpos
    rw [List.getD_eq_getElem _ _ h0]
    show ((format_data samples start stop).get ⟨0, h0⟩).dist = start
    rw [hget 0 h0]
    show start + ((stop - start) / (samples.length : ℚ)) * ((0 : ℕ) : ℚ) = start
    norm_num
  · intro hlt i h
    have hstep : 0 < (stop - start) / (samples.length : ℚ) :=
      div_pos (sub_pos.mpr hlt) hq
    rw [hget (i + 1) h, hget i (Nat.lt_of_succ_lt h)]
    constructor
    · show start + ((stop - start) / (samples.length : ℚ)) * ((i + 1 : ℕ) : ℚ)
          = (start + ((stop - start) / (samples.length : ℚ)) * (i : ℚ))
            + (stop - start) / (samples.length : ℚ)
      push_cast
      ring
    · show start + ((stop - start) / (samples.length : ℚ)) * (i : ℚ)
          < start + ((stop - start) / (samples.length : ℚ)) * ((i + 1 : ℕ) : ℚ)
      have hcast : ((i + 1 : ℕ) : ℚ) = (i : ℚ) + 1 := by push_cast; ring
      rw [hcast]
      have hmul := mul_lt_mul_of_pos_left
        (show (i : ℚ) < (i : ℚ) + 1 by linarith) hstep
      linarith

/-- C8 witness: the Range Mapper claim at samples [1, 2] over [0, 1). -/
theorem C8_range_mapper_witness :
    ([1, 2] : List ℕ) ≠ [] ∧ (format_data [1, 2] 0 1).length = 2 ∧
    ((format_data [1, 2] 0 1).getD 0 default).dist = 0 :=
  ⟨by decide, by simpa using (C8_range_mapper [1, 2] 0 1 (by decide)).1,
    (C8_range_mapper [1, 2] 0 1 (by decide)).2.2.1⟩

end ParkingSensor
